import Mathlib

/-!
# Verification of the pyswizzle reply bot (`bot.py`)

Shallow embedding of the decision logic of the pyswizzle Twitter bot:
corpus loading (`PySwizzle.load_lyrics`), similarity scoring
(`PySwizzle.similarity`), lyric selection (`PySwizzle.choose_lyric`),
tweet handling (`PySwizzle.handle_tweet`) and the hangup-absorbing
stream iterator (`TwitterInterface.__next__`).

Python strings are modelled as Lean `String` (a list of unicode code
points, matching Python's code-point semantics for `len`, slicing and
iteration).  Python string helpers used by the source (`str.strip`,
`str.lower`, `str.split`, `in`, slicing) are embedded below as `py*`
functions restricted to the ASCII behaviour relevant to the corpus.
`random.choice(xs)` is modelled as indexing by `r % xs.length` for an
arbitrary natural `r` supplied by the random source; every index is a
possible draw.  A Python exception escaping a function (e.g. `max([])`
raising `ValueError`) is modelled by an `Option` result being `none`.
-/

/-- Python `str.isspace` on the ASCII whitespace characters
(space, tab, newline, carriage return, vertical tab, form feed). -/
def pyIsSpace (c : Char) : Bool :=
  c = ' ' || c = '\t' || c = '\n' || c = '\r' || c = '\x0b' || c = '\x0c'

/-- Python `str.lower` (ASCII case mapping). -/
def pyLower (s : String) : String :=
  ⟨s.data.map Char.toLower⟩

/-- Python `str.strip()`: remove leading and trailing whitespace. -/
def pyStrip (s : String) : String :=
  ⟨((s.data.dropWhile pyIsSpace).reverse.dropWhile pyIsSpace).reverse⟩

/-- Helper for `pySplit`: scan the characters, accumulating the current
word (reversed) and emitting maximal nonempty runs of non-whitespace. -/
def pySplitAux : List Char → List Char → List (List Char)
  | [], acc => if acc = [] then [] else [acc.reverse]
  | c :: cs, acc =>
    if pyIsSpace c then
      if acc = [] then pySplitAux cs [] else acc.reverse :: pySplitAux cs []
    else pySplitAux cs (c :: acc)

/-- Python `str.split()` with no argument: split on runs of whitespace,
never producing empty words. -/
def pySplit (s : String) : List String :=
  (pySplitAux s.data []).map (fun w => ⟨w⟩)

/-- Python `needle in haystack` for strings: substring containment,
i.e. the needle's characters occur contiguously in the haystack. -/
def pyIn (needle haystack : String) : Prop :=
  needle.data <:+: haystack.data

instance (n h : String) : Decidable (pyIn n h) :=
  inferInstanceAs (Decidable (n.data <:+: h.data))

/-- Python `s[:n]` for a string `s`: the first `n` code points. -/
def pyTruncate (s : String) (n : ℕ) : String :=
  ⟨s.data.take n⟩

/-- `random.choice(xs)`: pick the element at index `r % len(xs)` where
`r` models the draw from the random source; raises (`none`) on `[]`. -/
def pyChoice {α : Type} (r : ℕ) (xs : List α) : Option α :=
  xs[r % xs.length]?

/-- `PySwizzle.load_lyrics` (bot.py lines 137-141): from the sequence of
raw lines of the lyrics file, keep every line that is not exactly
`"\n"`, stripped of surrounding whitespace, and pair the resulting
`lyrics` list with its lowercased copy `lyrics_lower`. -/
def load_lyrics (source : List String) : List String × List String :=
  let lyrics := (source.filter (fun l => l ≠ "\n")).map pyStrip
  (lyrics, lyrics.map pyLower)

/-- `PySwizzle.similarity` (bot.py lines 143-153):
`sum(piece in line for piece in pieces)` — the number of elements of the
word set `pieces` that occur as a substring of `line`. -/
def similarity (pieces : Finset String) (line : String) : ℕ :=
  ∑ piece ∈ pieces, if pyIn piece line then 1 else 0

/-- `set(text.lower().split())` (bot.py line 162): the set of lowercase
whitespace-delimited words of a tweet's text. -/
def tweetPieces (text : String) : Finset String :=
  (pySplit (pyLower text)).toFinset

/-- The score/candidate computation of `PySwizzle.choose_lyric`
(bot.py lines 155-167): score every line of `lyrics_lower`, take the
maximum score (`max([])` raises, modelled by `none`), and collect the
original-case lines whose score equals the maximum
(`[self.lyrics[i] for i, score in enumerate(scores) if score == max_score]`,
embedded by zipping the score list with `lyrics`). -/
def chooseLyricCandidates (lyrics lyricsLower : List String) (text : String) :
    Option (ℕ × List String) :=
  let pieces := tweetPieces text
  let scores := lyricsLower.map (fun line => similarity pieces line)
  match scores.max? with
  | none => none
  | some maxScore =>
    some (maxScore,
      (scores.zip lyrics).filterMap
        (fun si => if si.1 = maxScore then some si.2 else none))

/-- `PySwizzle.choose_lyric` (bot.py lines 155-168): `random.choice` over
the max-scoring lines, with the draw modelled by `r`. -/
def chooseLyric (r : ℕ) (lyrics lyricsLower : List String) (text : String) :
    Option String :=
  match chooseLyricCandidates lyrics lyricsLower text with
  | none => none
  | some (_, lines) => pyChoice r lines

/-- The maximum similarity score of a query text over a corpus, as the
spec describes it: score each corpus line (lowercased) against the
query's word set and take the maximum (`none` for an empty corpus). -/
def maxLyricScore? (lyrics : List String) (text : String) : Option ℕ :=
  ((lyrics.map pyLower).map (fun line => similarity (tweetPieces text) line)).max?

/-- A Twitter user record; only the `screen_name` field is read by the
bot (`m['screen_name']`). -/
structure TwitterUser where
  screen_name : String
deriving DecidableEq

/-- An incoming tweet, keeping the fields `PySwizzle.handle_tweet` reads:
`tweet['user']`, `tweet['text']`, `tweet['entities']['user_mentions']`
(flattened to `user_mentions`) and `tweet['id']`. -/
structure Tweet where
  user : TwitterUser
  text : String
  user_mentions : List TwitterUser
  id : ℕ
deriving DecidableEq

/-- An outgoing reply: the text passed to `interface.tweet` and the
`reply_to` thread-parent id. -/
structure Reply where
  text : String
  reply_to : ℕ
deriving DecidableEq

/-- The untruncated reply string of `PySwizzle.handle_tweet`
(bot.py lines 188-190): drop the bot's own name from the participant
names, prefix each with `@`, join with single spaces, and append a space
and the chosen line. -/
def untruncated_reply (username : String) (usernames : List String)
    (line : String) : String :=
  String.intercalate " "
      ((usernames.filter (fun u => u ≠ username)).map (fun u => "@" ++ u))
    ++ " " ++ line

/-- Reply composition and truncation of `PySwizzle.handle_tweet`
(bot.py lines 188-193).  The `Bool` component records whether the
warning-level truncation diagnostic (`log.warning`) was emitted. -/
def build_reply (username : String) (usernames : List String)
    (line : String) : String × Bool :=
  let reply := untruncated_reply username usernames line
  if reply.length > 140 then (pyTruncate reply 140, true) else (reply, false)

/-- `PySwizzle.handle_tweet` (bot.py lines 170-194).  Returns the reply
handed to `interface.tweet` (`none` when the tweet is discarded or when
`choose_lyric` raises on an empty corpus) together with the tweet dict
as it stands after the call; the source mutates the incoming dict by
`mentions.append(tweet['user'])` (line 180).  The Python iteration order
of `set(m['screen_name'] for m in mentions)` is modelled by `dedup`
order. -/
def handle_tweet (username : String) (lyrics lyricsLower : List String)
    (r : ℕ) (t : Tweet) : Option Reply × Tweet :=
  if t.user.screen_name = username then (none, t)
  else
    let mentions := t.user_mentions ++ [t.user]
    let t' := { t with user_mentions := mentions }
    let usernames := (mentions.map (fun m => m.screen_name)).dedup
    if username ∉ usernames then (none, t')
    else
      match chooseLyric r lyrics lyricsLower t.text with
      | none => (none, t')
      | some line =>
        (some ⟨(build_reply username usernames line).1, t.id⟩, t')

/-- An item yielded by the underlying Twitter stream: either a hangup
sentinel (`'hangup' in n`) or a payload tweet. -/
inductive StreamItem where
  | hangup : StreamItem
  | msg (t : Tweet) : StreamItem
deriving DecidableEq

/-- `TwitterInterface.__next__` (bot.py lines 72-81) on a mocked
transport whose reconnect succeeds instantly: the remaining underlying
items are a single list, `open_stream` resumes on the rest of it, a
hangup item triggers reconnect-and-retry (`return next(self)`), and an
exhausted stream raises `StopIteration` (`none`). -/
def interface_next : List StreamItem → Option (StreamItem × List StreamItem)
  | [] => none
  | StreamItem.hangup :: rest => interface_next rest
  | item :: rest => some (item, rest)

/-- The sequence of items the router's `for tweet in self.interface`
loop (bot.py line 203) observes when the underlying transport yields
`items`: repeatedly pull `interface_next` until exhaustion. -/
def router_observed : List StreamItem → List StreamItem
  | [] => []
  | StreamItem.hangup :: rest => router_observed rest
  | item :: rest => item :: router_observed rest

/-! ## Helper lemmas -/

lemma foldl_max_spec : ∀ (as : List ℕ) (a : ℕ),
    (as.foldl max a = a ∨ as.foldl max a ∈ as) ∧
      a ≤ as.foldl max a ∧ ∀ x ∈ as, x ≤ as.foldl max a
  | [], a => by simp
  | b :: bs, a => by
    have ih := foldl_max_spec bs (max a b)
    simp only [List.foldl_cons]
    refine ⟨?_, ?_, ?_⟩
    · rcases ih.1 with h | h
      · rcases max_choice a b with hab | hab
        · exact Or.inl (h.trans hab)
        · exact Or.inr (by rw [h.trans hab]; exact List.mem_cons_self b bs)
      · exact Or.inr (List.mem_cons_of_mem b h)
    · exact le_trans (le_max_left a b) ih.2.1
    · intro x hx
      rcases List.mem_cons.mp hx with rfl | hx
      · exact le_trans (le_max_right a x) ih.2.1
      · exact ih.2.2 x hx

lemma max?_spec {l : List ℕ} {m : ℕ} (h : l.max? = some m) :
    m ∈ l ∧ ∀ x ∈ l, x ≤ m := by
  cases l with
  | nil => simp [List.max?] at h
  | cons a as =>
    have h' : as.foldl max a = m := by
      have : (a :: as).max? = some (as.foldl max a) := rfl
      rw [this] at h
      exact Option.some.inj h
    have hs := foldl_max_spec as a
    rw [h'] at hs
    refine ⟨?_, ?_⟩
    · rcases hs.1 with h1 | h1
      · rw [h1]; exact List.mem_cons_self a as
      · exact List.mem_cons_of_mem a h1
    · intro x hx
      rcases List.mem_cons.mp hx with rfl | hx
      · exact hs.2.1
      · exact hs.2.2 x hx

lemma max?_of_ne_nil {l : List ℕ} (h : l ≠ []) : ∃ m, l.max? = some m := by
  cases l with
  | nil => exact absurd rfl h
  | cons a as => exact ⟨as.foldl max a, rfl⟩

lemma pyChoice_mem {α : Type} {r : ℕ} {xs : List α} {x : α}
    (h : pyChoice r xs = some x) : x ∈ xs := by
  unfold pyChoice at h
  exact List.getElem?_mem h

lemma pyChoice_of_mem {α : Type} {xs : List α} {x : α} (h : x ∈ xs) :
    ∃ r, pyChoice r xs = some x := by
  obtain ⟨i, hi, hx⟩ := List.mem_iff_getElem.mp h
  refine ⟨i, ?_⟩
  unfold pyChoice
  rw [Nat.mod_eq_of_lt hi, List.getElem?_eq_getElem hi, hx]

lemma pyChoice_total {α : Type} (r : ℕ) {xs : List α} (h : xs ≠ []) :
    ∃ x, pyChoice r xs = some x := by
  have hpos : 0 < xs.length := List.length_pos.mpr h
  have hlt : r % xs.length < xs.length := Nat.mod_lt r hpos
  exact ⟨xs[r % xs.length], by unfold pyChoice; rw [List.getElem?_eq_getElem hlt]⟩

lemma mem_selected_iff (g : String → ℕ) (m : ℕ) (x : String) :
    ∀ (lyrics : List String),
      (x ∈ ((lyrics.map g).zip lyrics).filterMap
          (fun si => if si.1 = m then some si.2 else none))
        ↔ (x ∈ lyrics ∧ g x = m)
  | [] => by simp
  | a :: as => by
    have ih := mem_selected_iff g m x as
    simp only [List.map_cons, List.zip_cons_cons, List.filterMap_cons]
    by_cases h : g a = m
    · rw [if_pos h]
      simp only [List.mem_cons, ih]
      constructor
      · rintro (rfl | ⟨hx, hg⟩)
        · exact ⟨Or.inl rfl, h⟩
        · exact ⟨Or.inr hx, hg⟩
      · rintro ⟨rfl | hx, hg⟩
        · exact Or.inl rfl
        · exact Or.inr ⟨hx, hg⟩
    · rw [if_neg h]
      rw [ih]
      simp only [List.mem_cons]
      constructor
      · rintro ⟨hx, hg⟩
        exact ⟨Or.inr hx, hg⟩
      · rintro ⟨rfl | hx, hg⟩
        · exact absurd hg h
        · exact ⟨hx, hg⟩

/-! ## Claim theorems -/

/-- C7: for every set of query words and every line, the similarity
score equals the number of elements of the query-word set that occur as
a substring anywhere within the line, and the score is at most the size
of the query-word set (it is a natural number, hence at least 0). -/
theorem similarity_count_spec (pieces : Finset String) (line : String) :
    similarity pieces line = (pieces.filter (fun p => pyIn p line)).card ∧
    similarity pieces line ≤ pieces.card := by
  have h : similarity pieces line
      = (pieces.filter (fun p => pyIn p line)).card := by
    unfold similarity
    rw [Finset.card_filter]
  exact ⟨h, h ▸ Finset.card_filter_le _ _⟩

/-- C8: `load_lyrics` is a pure function of the source, so loading the
same source twice yields definitionally equal results; within one load,
`lines_lower` is the lowercase image of `lines`, the two sequences have
equal length, and they correspond index by index. -/
theorem load_lyrics_parallel_spec (src : List String) :
    load_lyrics src = load_lyrics src ∧
    (load_lyrics src).2 = (load_lyrics src).1.map pyLower ∧
    (load_lyrics src).2.length = (load_lyrics src).1.length ∧
    ∀ i : ℕ, (load_lyrics src).2[i]? = ((load_lyrics src).1[i]?).map pyLower := by
  refine ⟨rfl, rfl, ?_, ?_⟩
  · simp [load_lyrics]
  · intro i
    simp [load_lyrics]

/-- C5 (failing input): a source line consisting of whitespace followed
by a newline is empty after stripping trailing whitespace, yet
`load_lyrics` keeps it (its filter only drops lines equal to `"\n"`),
so the corpus receives a blank entry `""`, contrary to the claim and to
the source's own comment "(no blank lines)". -/
theorem load_lyrics_keeps_blank_line :
    load_lyrics ["i stay out too late\n", "  \n", "shake it off\n"]
      = (["i stay out too late", "", "shake it off"],
         ["i stay out too late", "", "shake it off"]) := by decide

/-- C6 (counterexample): on a source whose filtered line sequence is
empty, `load_lyrics` does not fail — the code defines no
`ConfigurationError` — but returns the empty corpus. -/
theorem load_lyrics_empty_no_error :
    load_lyrics ["\n"] = (([] : List String), ([] : List String)) := by decide

/-- C6 (amended): when the filtered line sequence is empty,
`load_lyrics` succeeds with an empty corpus, and the selection
operation invoked on that corpus fails at run time (`max([])` raises
`ValueError`, modelled by `none`) instead of a load-time
`ConfigurationError`. -/
theorem load_lyrics_empty_behavior (src : List String)
    (h : src.filter (fun l => l ≠ "\n") = []) :
    load_lyrics src = ([], []) ∧
    ∀ (r : ℕ) (text : String),
      chooseLyric r (load_lyrics src).1 (load_lyrics src).2 text = none := by
  have h1 : load_lyrics src = ([], []) := by
    simp only [load_lyrics, h, List.map_nil]
  refine ⟨h1, ?_⟩
  intro r text
  rw [h1]
  rfl

theorem load_lyrics_empty_behavior_witness :
    load_lyrics ["\n"] = ([], []) ∧
    chooseLyric 0 (load_lyrics ["\n"]).1 (load_lyrics ["\n"]).2 "hi" = none :=
  ⟨(load_lyrics_empty_behavior ["\n"] (by decide)).1,
   (load_lyrics_empty_behavior ["\n"] (by decide)).2 0 "hi"⟩

/-- C1: for every non-empty corpus (with its lowercase companion as
`load_lyrics` produces it) and every query text: every line
`choose_lyric` can return is an element of the corpus and its
similarity score (lowercased, against the query's word set) is the
maximum score over all corpus lines; every max-scoring line is a
possible return value (some random draw yields it) and a line is never
returned for any draw unless its score is maximal; and the selection
always returns a line. -/
theorem choose_lyric_spec (lyrics : List String) (text : String)
    (hne : lyrics ≠ []) :
    (∀ (r : ℕ) (l : String),
        chooseLyric r lyrics (lyrics.map pyLower) text = some l →
        l ∈ lyrics ∧
        maxLyricScore? lyrics text
          = some (similarity (tweetPieces text) (pyLower l))) ∧
    (∀ l ∈ lyrics,
        maxLyricScore? lyrics text
          = some (similarity (tweetPieces text) (pyLower l)) →
        ∃ r, chooseLyric r lyrics (lyrics.map pyLower) text = some l) ∧
    (∀ r : ℕ, ∃ l, chooseLyric r lyrics (lyrics.map pyLower) text = some l) := by
  set g : String → ℕ := fun l => similarity (tweetPieces text) (pyLower l) with hg
  have hscores : (lyrics.map pyLower).map
      (fun line => similarity (tweetPieces text) line) = lyrics.map g := by
    rw [List.map_map]
    rfl
  have hmapne : lyrics.map g ≠ [] := by
    simpa using hne
  obtain ⟨m, hm⟩ := max?_of_ne_nil hmapne
  have hmspec := max?_spec hm
  have hcand : chooseLyricCandidates lyrics (lyrics.map pyLower) text
      = some (m, ((lyrics.map g).zip lyrics).filterMap
          (fun si => if si.1 = m then some si.2 else none)) := by
    unfold chooseLyricCandidates
    simp only [hscores, hm]
  have hmax : maxLyricScore? lyrics text = some m := by
    unfold maxLyricScore?
    rw [hscores, hm]
  set cands : List String := ((lyrics.map g).zip lyrics).filterMap
      (fun si => if si.1 = m then some si.2 else none) with hcands
  have hmemc : ∀ x : String, x ∈ cands ↔ x ∈ lyrics ∧ g x = m :=
    fun x => mem_selected_iff g m x lyrics
  have hchoose : ∀ r : ℕ, chooseLyric r lyrics (lyrics.map pyLower) text
      = pyChoice r cands := by
    intro r
    unfold chooseLyric
    rw [hcand]
  refine ⟨?_, ?_, ?_⟩
  · intro r l hl
    rw [hchoose r] at hl
    have hlc := (hmemc l).mp (pyChoice_mem hl)
    refine ⟨hlc.1, ?_⟩
    rw [hmax, ← hlc.2]
  · intro l hl hscore
    have hgl : g l = m := by
      rw [hmax] at hscore
      exact (Option.some.inj hscore).symm
    obtain ⟨r, hr⟩ := pyChoice_of_mem ((hmemc l).mpr ⟨hl, hgl⟩)
    exact ⟨r, by rw [hchoose r]; exact hr⟩
  · intro r
    obtain ⟨x, hx, hgx⟩ := List.mem_map.mp hmspec.1
    have hcne : cands ≠ [] :=
      List.ne_nil_of_mem ((hmemc x).mpr ⟨hx, hgx⟩)
    obtain ⟨l, hl⟩ := pyChoice_total r hcne
    exact ⟨l, by rw [hchoose r]; exact hl⟩

theorem choose_lyric_spec_witness :
    "shake it off" ∈ (["shake it off"] : List String) ∧
    maxLyricScore? ["shake it off"] "hello"
      = some (similarity (tweetPieces "hello") (pyLower "shake it off")) :=
  (choose_lyric_spec ["shake it off"] "hello" (by decide)).1 0 "shake it off"
    (by decide)

/-- C9: on the three-line corpus of the scenario and the query
"i knew you were trouble when you walked in", the maximum similarity
score is 5, the set of max-scoring lines is exactly
["i knew you were trouble"], and every random draw of the selection
returns that line. -/
theorem scenario_trouble_selection :
    maxLyricScore? ["i knew you were trouble",
        "we are never getting back together", "shake it off"]
      "i knew you were trouble when you walked in" = some 5 ∧
    chooseLyricCandidates ["i knew you were trouble",
        "we are never getting back together", "shake it off"]
      (["i knew you were trouble", "we are never getting back together",
        "shake it off"].map pyLower)
      "i knew you were trouble when you walked in"
      = some (5, ["i knew you were trouble"]) ∧
    ∀ r : ℕ, chooseLyric r ["i knew you were trouble",
        "we are never getting back together", "shake it off"]
      (["i knew you were trouble", "we are never getting back together",
        "shake it off"].map pyLower)
      "i knew you were trouble when you walked in"
      = some "i knew you were trouble" := by
  have hcand : chooseLyricCandidates ["i knew you were trouble",
      "we are never getting back together", "shake it off"]
      (["i knew you were trouble", "we are never getting back together",
        "shake it off"].map pyLower)
      "i knew you were trouble when you walked in"
      = some (5, ["i knew you were trouble"]) := by decide
  refine ⟨by decide, hcand, ?_⟩
  intro r
  unfold chooseLyric
  rw [hcand]
  show pyChoice r ["i knew you were trouble"] = some "i knew you were trouble"
  unfold pyChoice
  simp [Nat.mod_one]

lemma pyTruncate_length (s : String) (n : ℕ) :
    (pyTruncate s n).length = min n s.length := by
  show (s.data.take n).length = min n s.data.length
  exact List.length_take n s.data

lemma build_reply_le (username : String) (usernames : List String)
    (line : String) :
    (build_reply username usernames line).1.length ≤ 140 := by
  by_cases h : (untruncated_reply username usernames line).length > 140
  · have hb : build_reply username usernames line
        = (pyTruncate (untruncated_reply username usernames line) 140, true) := by
      simp [build_reply, h]
    rw [hb, pyTruncate_length]
    exact le_of_eq (Nat.min_eq_left (Nat.le_of_lt h))
  · have hb : build_reply username usernames line
        = (untruncated_reply username usernames line, false) := by
      simp [build_reply, h]
    rw [hb]
    exact Nat.not_lt.mp h

/-- C2: the composed reply never exceeds 140 characters — both for the
composition step in isolation and for every reply `handle_tweet`
actually hands to `interface.tweet`; when the untruncated concatenation
of the `@`-prefixed participant handles, a space and the chosen line
exceeds 140 characters, the reply is cut to exactly 140 characters and
the warning-level truncation diagnostic is recorded. -/
theorem build_reply_spec (username : String) (usernames : List String)
    (line : String) (lyrics lyricsLower : List String) (r : ℕ) (t : Tweet) :
    (build_reply username usernames line).1.length ≤ 140 ∧
    ((untruncated_reply username usernames line).length > 140 →
      (build_reply username usernames line).1.length = 140 ∧
      (build_reply username usernames line).2 = true) ∧
    (∀ rep : Reply, (handle_tweet username lyrics lyricsLower r t).1 = some rep →
      rep.text.length ≤ 140) := by
  refine ⟨build_reply_le username usernames line, ?_, ?_⟩
  · intro h
    have hb : build_reply username usernames line
        = (pyTruncate (untruncated_reply username usernames line) 140, true) := by
      simp [build_reply, h]
    have hlen : (pyTruncate (untruncated_reply username usernames line) 140).length
        = 140 := by
      rw [pyTruncate_length]
      exact Nat.min_eq_left (Nat.le_of_lt h)
    refine ⟨?_, ?_⟩
    · rw [hb]
      exact hlen
    · rw [hb]
  · intro rep hrep
    unfold handle_tweet at hrep
    split at hrep
    · exact absurd hrep (by simp)
    · dsimp only at hrep
      split at hrep
      · exact absurd hrep (by simp)
      · split at hrep
        · exact absurd hrep (by simp)
        · have hrepeq := (Option.some.inj hrep).symm
          rw [hrepeq]
          exact build_reply_le _ _ _

set_option maxRecDepth 8000 in
theorem build_reply_spec_witness :
    ((build_reply "pyswizzle" ["taylorswift13"]
        (String.mk (List.replicate 150 'a'))).1.length = 140 ∧
     (build_reply "pyswizzle" ["taylorswift13"]
        (String.mk (List.replicate 150 'a'))).2 = true) ∧
    (Reply.mk "@alice shake it off" 9).text.length ≤ 140 :=
  ⟨(build_reply_spec "pyswizzle" ["taylorswift13"]
      (String.mk (List.replicate 150 'a')) ["shake it off"] ["shake it off"] 0
      ⟨⟨"alice"⟩, "hello", [⟨"pyswizzle"⟩], 9⟩).2.1 (by decide),
   (build_reply_spec "pyswizzle" ["taylorswift13"]
      (String.mk (List.replicate 150 'a')) ["shake it off"] ["shake it off"] 0
      ⟨⟨"alice"⟩, "hello", [⟨"pyswizzle"⟩], 9⟩).2.2
      ⟨"@alice shake it off", 9⟩ (by decide)⟩

/-- C3: a tweet authored by the bot's own handle is discarded with no
reply and no mutation; a tweet whose mention set (explicit mentions
together with the author) does not contain the bot's handle is also
discarded with no reply.  In both cases the reply component is `none`,
so the composition/send path is never reached. -/
theorem handle_tweet_filters (username : String)
    (lyrics lyricsLower : List String) (r : ℕ) (t : Tweet) :
    (t.user.screen_name = username →
      handle_tweet username lyrics lyricsLower r t = (none, t)) ∧
    (username ≠ t.user.screen_name →
      username ∉ t.user_mentions.map (fun m => m.screen_name) →
      (handle_tweet username lyrics lyricsLower r t).1 = none) := by
  constructor
  · intro h
    unfold handle_tweet
    rw [if_pos h]
  · intro hauthor hment
    have h1 : ¬(t.user.screen_name = username) := fun hh => hauthor hh.symm
    have h2 : username ∉
        (((t.user_mentions ++ [t.user]).map (fun m => m.screen_name)).dedup) := by
      intro hc
      rw [List.mem_dedup, List.map_append] at hc
      rcases List.mem_append.mp hc with hc | hc
      · exact hment hc
      · simp only [List.map_cons, List.map_nil, List.mem_singleton] at hc
        exact hauthor hc
    unfold handle_tweet
    rw [if_neg h1]
    dsimp only
    split
    · rfl
    · rename_i hcond
      exact absurd h2 hcond

theorem handle_tweet_filters_witness :
    handle_tweet "pyswizzle" ["shake it off"] ["shake it off"] 0
        ⟨⟨"pyswizzle"⟩, "hello", [], 7⟩
      = (none, ⟨⟨"pyswizzle"⟩, "hello", [], 7⟩) ∧
    (handle_tweet "pyswizzle" ["shake it off"] ["shake it off"] 0
        ⟨⟨"alice"⟩, "hello", [⟨"bob"⟩], 8⟩).1 = none :=
  ⟨(handle_tweet_filters "pyswizzle" ["shake it off"] ["shake it off"] 0
      ⟨⟨"pyswizzle"⟩, "hello", [], 7⟩).1 rfl,
   (handle_tweet_filters "pyswizzle" ["shake it off"] ["shake it off"] 0
      ⟨⟨"alice"⟩, "hello", [⟨"bob"⟩], 8⟩).2 (by decide) (by decide)⟩

/-- C10: for every tweet that passes the self-author filter,
`handle_tweet` mutates the incoming tweet dict in place: the author's
user record is appended to its `user_mentions` list (all other fields
unchanged), so the event is not left unchanged by routing. -/
theorem handle_tweet_mutates_mentions (username : String)
    (lyrics lyricsLower : List String) (r : ℕ) (t : Tweet)
    (h : t.user.screen_name ≠ username) :
    (handle_tweet username lyrics lyricsLower r t).2
      = { t with user_mentions := t.user_mentions ++ [t.user] } ∧
    (handle_tweet username lyrics lyricsLower r t).2 ≠ t := by
  have h2 : (handle_tweet username lyrics lyricsLower r t).2
      = { t with user_mentions := t.user_mentions ++ [t.user] } := by
    unfold handle_tweet
    rw [if_neg h]
    dsimp only
    split
    · rfl
    · split <;> rfl
  refine ⟨h2, ?_⟩
  intro heq
  rw [h2] at heq
  have hlen := congrArg (fun tw => tw.user_mentions.length) heq
  simp [List.length_append] at hlen

theorem handle_tweet_mutates_mentions_witness :
    (handle_tweet "pyswizzle" ["shake it off"] ["shake it off"] 0
        ⟨⟨"alice"⟩, "hey @pyswizzle", [⟨"pyswizzle"⟩], 3⟩).2
      = ⟨⟨"alice"⟩, "hey @pyswizzle", [⟨"pyswizzle"⟩, ⟨"alice"⟩], 3⟩ ∧
    (handle_tweet "pyswizzle" ["shake it off"] ["shake it off"] 0
        ⟨⟨"alice"⟩, "hey @pyswizzle", [⟨"pyswizzle"⟩], 3⟩).2
      ≠ ⟨⟨"alice"⟩, "hey @pyswizzle", [⟨"pyswizzle"⟩], 3⟩ :=
  ⟨(handle_tweet_mutates_mentions "pyswizzle" ["shake it off"] ["shake it off"] 0
      ⟨⟨"alice"⟩, "hey @pyswizzle", [⟨"pyswizzle"⟩], 3⟩ (by decide)).1,
   (handle_tweet_mutates_mentions "pyswizzle" ["shake it off"] ["shake it off"] 0
      ⟨⟨"alice"⟩, "hey @pyswizzle", [⟨"pyswizzle"⟩], 3⟩ (by decide)).2⟩

lemma router_observed_next (l : List StreamItem) :
    router_observed l = match interface_next l with
      | none => []
      | some (item, rest) => item :: router_observed rest := by
  induction l with
  | nil => rfl
  | cons x rest ih =>
    cases x with
    | hangup =>
      show router_observed rest = _
      rw [ih]
      rfl
    | msg t => rfl

/-- C4: the router never observes a hangup item: the stream iterator
absorbs every hangup by reconnecting, so the observed sequence is
exactly the non-hangup items in order, with no duplication or loss; in
particular on the scenario [Message A, hangup, Message B] the router
observes exactly A then B. -/
theorem stream_absorbs_hangups :
    (∀ A B : Tweet,
      router_observed [StreamItem.msg A, StreamItem.hangup, StreamItem.msg B]
        = [StreamItem.msg A, StreamItem.msg B]) ∧
    (∀ l : List StreamItem, StreamItem.hangup ∉ router_observed l) ∧
    (∀ l : List StreamItem,
      router_observed l = l.filter (fun e => e ≠ StreamItem.hangup)) := by
  have hfilter : ∀ l : List StreamItem,
      router_observed l = l.filter (fun e => e ≠ StreamItem.hangup) := by
    intro l
    induction l with
    | nil => rfl
    | cons x rest ih =>
      cases x with
      | hangup => simpa [router_observed, List.filter_cons] using ih
      | msg t =>
        show StreamItem.msg t :: router_observed rest = _
        simp [List.filter_cons, ih]
  refine ⟨fun A B => rfl, ?_, hfilter⟩
  intro l hc
  rw [hfilter] at hc
  have := List.of_mem_filter hc
  simp at this
